import Mathlib

/-!
# Verification of the sysinfo Linux system/process sampler

Shallow embedding of `src/linux/system.rs` (the only source file of the
repository).  Pure text processing (the stat-record parser, the status-file
Uid/Gid extractor, the mount-table parser) is translated into executable Lean
functions over `List Char` / `String`; the stateful refresh engine
(`refresh_procs` / `_get_process_data` / `update_time_and_memory` /
`clear_procs`) is translated into explicit state passing over a filesystem
snapshot value.  Rust's `u64`/`u32` are modelled as `Nat` and `pid_t` (`i32`)
as `Int`; none of the claims under study exercises integer wrap-around, and
every arithmetic operation of the source that could wrap or panic is either
guarded in the source itself (and the guard is reproduced here) or noted at
its embedding site.  `f32` appears in the source only as the type of the
derived cpu-usage percentage; it is modelled as exact rationals (`Rat`),
no claim depends on floating-point rounding.

Fallible operations return `Except Panic α`: the source frequently calls
`Option::unwrap` / `Result::unwrap` / `assert!` / unchecked indexing, all of
which abort the running program when they fail; every such site is embedded
as `.error .panic`.  Functions of the repository that live in source files
not present under `src/` (`Process::new`, `set_time`, `has_been_updated`,
`compute_cpu_usage`, `get_raw_times`, `ProcessStatus::from`, `disk::new`)
are modelled from the spec and marked as such in their doc comments.
-/

set_option autoImplicit false

/-- An aborted execution: Rust `unwrap`/`expect`/`assert!`/out-of-bounds
indexing all terminate the program.  One abstract abort value suffices. -/
inductive Panic : Type where
  | panic : Panic
deriving DecidableEq, Repr

/-- `Option::unwrap`: aborts on `None`. -/
def unwrapO {α : Type} : Option α → Except Panic α
  | some a => .ok a
  | none => .error .panic

/-- Rust slice indexing `l[i]`: aborts when out of bounds. -/
def idx {α : Type} (l : List α) (i : Nat) : Except Panic α :=
  unwrapO (l.get? i)

/-- All-digit decimal parse of a nonempty character list (the digit part of
Rust's `from_str` for unsigned integers). -/
def parseDigits : List Char → Option Nat
  | [] => none
  | l => go l 0
where
  go : List Char → Nat → Option Nat
  | [], acc => some acc
  | c :: rest, acc =>
    if c.isDigit then go rest (acc * 10 + (c.toNat - '0'.toNat)) else none

/-- Rust `u64::from_str` / `u32::from_str` (`parse::<u64>()`): an optional
leading `+` followed by one or more digits.  Overflow is not modelled (`Nat`
is unbounded); no claim exercises values near `2^64`. -/
def parseU64 (s : String) : Option Nat :=
  match s.data with
  | [] => none
  | '+' :: rest => parseDigits rest
  | l => parseDigits l

/-- Rust `pid_t::from_str` (`i32::from_str`): optional sign then digits.
Overflow is not modelled (`Int` is unbounded). -/
def parsePidT (s : String) : Option Int :=
  match s.data with
  | [] => none
  | '-' :: rest => (parseDigits rest).map (fun n => -(n : Int))
  | '+' :: rest => (parseDigits rest).map (fun n => (n : Int))
  | l => (parseDigits l).map (fun n => (n : Int))

/-- Split at the first occurrence of `sep`; `none` when `sep` is absent.
Models the two-element form of Rust `str::splitn(2, sep)` (whose second
iterator item is `None` exactly when `sep` is absent). -/
def splitOnFirst (sep : Char) : List Char → Option (List Char × List Char)
  | [] => none
  | c :: rest =>
    if c = sep then some ([], rest)
    else (splitOnFirst sep rest).map (fun p => (c :: p.1, p.2))

/-- Split at the last occurrence of `sep` (Rust `str::rsplitn(2, sep)`),
returned as `(before, after)`; `none` when `sep` is absent. -/
def splitOnLast (sep : Char) (l : List Char) : Option (List Char × List Char) :=
  (splitOnFirst sep l.reverse).map (fun p => (p.2.reverse, p.1.reverse))

/-- Rust `str::split_whitespace`: split on runs of whitespace, yielding no
empty pieces. -/
def splitWs (l : List Char) : List (List Char) :=
  go l []
where
  go : List Char → List Char → List (List Char)
  | [], cur => if cur.isEmpty then [] else [cur.reverse]
  | c :: rest, cur =>
    if c.isWhitespace then
      if cur.isEmpty then go rest [] else cur.reverse :: go rest []
    else go rest (c :: cur)

/-- Rust `str::split(sep)`: split on every occurrence of `sep`, keeping
empty pieces (`"a,,b".split(',') = ["a","","b"]`, `"".split(',') = [""]`). -/
def splitOnChar (sep : Char) : List Char → List (List Char)
  | [] => [[]]
  | c :: rest =>
    if c = sep then [] :: splitOnChar sep rest
    else
      match splitOnChar sep rest with
      | [] => [[c]]
      | p :: ps => (c :: p) :: ps

/-- Rust `str::lines`: split on `'\n'`, drop a final empty piece produced by
a trailing newline, strip one trailing `'\r'` from each line. -/
def linesOf (s : String) : List String :=
  let ps := splitOnChar '\n' s.data
  let ps := match ps.reverse with
            | [] :: rest => rest.reverse
            | _ => ps
  ps.map (fun l => if l.getLast? = some '\r' then (⟨l.dropLast⟩ : String) else ⟨l⟩)

/-- List-level `str::starts_with`. -/
def isPrefixList : List Char → List Char → Bool
  | [], _ => true
  | _ :: _, [] => false
  | p :: ps, c :: cs => p = c && isPrefixList ps cs

/-- The stat-record splitter of `_get_process_data`
(`src/linux/system.rs:305-313`): isolate the pid at the first `' '`
(`splitn(2, ' ')`, second item unwrapped), cut the rest at the last `')'`
(`rsplitn(2, ')')`, second item unwrapped; the separating `')'` itself is
lost), then split the tail on whitespace.  The resulting `parts` list is
`[pid, name-field, state, ...]`. -/
def parseStat (data : List Char) : Except Panic (List String) :=
  match splitOnFirst ' ' data with
  | none => .error .panic
  | some (pidPart, rest) =>
    match splitOnLast ')' rest with
    | none => .error .panic
    | some (namePart, tail) =>
      .ok ((⟨pidPart⟩ : String) :: (⟨namePart⟩ : String) ::
           (splitWs tail).map (fun l => (⟨l⟩ : String)))

/-- Modelled from the spec (§4.2; `ProcessStatus` lives in the absent
`process.rs`): the lifecycle status of a process. -/
inductive ProcessStatus : Type where
  | Run | Sleep | Idle | Zombie | Stop | Tracing | Dead
  | Unknown (c : Char)
deriving DecidableEq, Repr

/-- Modelled from the spec (§4.2 state-character mapping; `ProcessStatus::from`
lives in the absent `process.rs`): `R`→running, `S`→sleeping,
`D`→waiting-on-disk, `Z`→zombie, `T`→stopped, `t`→tracing-stop, `X`/`x`→dead,
anything else→unknown. -/
def ProcessStatus.fromChar : Char → ProcessStatus
  | 'R' => .Run
  | 'S' => .Sleep
  | 'D' => .Idle
  | 'Z' => .Zombie
  | 'T' => .Stop
  | 't' => .Tracing
  | 'X' => .Dead
  | 'x' => .Dead
  | c => .Unknown c

/-- The non-recursive fields of a `Process` (spec §3; the `Process` struct
lives in the absent `process.rs`, its field set is fixed by the spec's data
model and by the accesses in `system.rs`).  `cpu_usage` is `f32` in the
source, modelled as `Rat`. -/
structure ProcInfo : Type where
  pid : Int
  parent : Option Int
  start_time : Nat
  name : String
  cmd : List String
  environ : List String
  exe : String
  cwd : String
  root : String
  uid : Nat
  gid : Nat
  memory : Nat
  utime : Nat
  stime : Nat
  old_utime : Nat
  old_stime : Nat
  cpu_usage : Rat
  status : Option ProcessStatus
  updated : Bool
deriving DecidableEq, Repr

/-- A process or thread: its scalar fields plus the owned table of its
thread sub-entries (`tasks : HashMap<pid_t, Process>`, modelled as an
association list). -/
inductive Process : Type where
  | mk (info : ProcInfo) (tasks : List (Int × Process)) : Process

def Process.info : Process → ProcInfo
  | .mk i _ => i

def Process.tasks : Process → List (Int × Process)
  | .mk _ t => t

def Process.withInfo (p : Process) (f : ProcInfo → ProcInfo) : Process :=
  .mk (f p.info) p.tasks

def Process.setTasks (p : Process) (t : List (Int × Process)) : Process :=
  .mk p.info t

def Process.pid (p : Process) : Int := p.info.pid
def Process.parent (p : Process) : Option Int := p.info.parent
def Process.start_time (p : Process) : Nat := p.info.start_time
def Process.name (p : Process) : String := p.info.name
def Process.cmd (p : Process) : List String := p.info.cmd
def Process.environ (p : Process) : List String := p.info.environ
def Process.exe (p : Process) : String := p.info.exe
def Process.cwd (p : Process) : String := p.info.cwd
def Process.root (p : Process) : String := p.info.root
def Process.uid (p : Process) : Nat := p.info.uid
def Process.gid (p : Process) : Nat := p.info.gid
def Process.memory (p : Process) : Nat := p.info.memory
def Process.utime (p : Process) : Nat := p.info.utime
def Process.stime (p : Process) : Nat := p.info.stime
def Process.old_utime (p : Process) : Nat := p.info.old_utime
def Process.old_stime (p : Process) : Nat := p.info.old_stime
def Process.cpu_usage (p : Process) : Rat := p.info.cpu_usage
def Process.status (p : Process) : Option ProcessStatus := p.info.status
def Process.updated (p : Process) : Bool := p.info.updated

/-- `HashMap::get` / `get_mut`: first entry with the given key. -/
def tasksGet (l : List (Int × Process)) (k : Int) : Option Process :=
  match l with
  | [] => none
  | (k', v) :: rest => if k' = k then some v else tasksGet rest k

/-- `HashMap::insert` (and in-place mutation through `get_mut`): replace the
first entry with the given key, or append when the key is absent. -/
def tasksInsert (l : List (Int × Process)) (k : Int) (v : Process) :
    List (Int × Process) :=
  match l with
  | [] => [(k, v)]
  | (k', v') :: rest =>
    if k' = k then (k, v) :: rest else (k', v') :: tasksInsert rest k v

/-- Modelled from the spec (§3; `Process::new` lives in the absent
`process.rs`): a fresh entry carries its id, parent id and start time;
identity metadata and counters start empty/zero, the status is unset and the
touched flag is stale. -/
def Process.new (pid : Int) (parent : Option Int) (start_time : Nat) : Process :=
  .mk { pid := pid, parent := parent, start_time := start_time,
        name := "", cmd := [], environ := [], exe := "", cwd := "", root := "",
        uid := 0, gid := 0, memory := 0, utime := 0, stime := 0,
        old_utime := 0, old_stime := 0, cpu_usage := 0,
        status := none, updated := false } []

/-- Modelled from the spec (§4.4 step 4 and §4.6; `set_time` lives in the
absent `process.rs`): persist the previous utime/stime as the "old" pair,
store the new pair, and mark the entry touched. -/
def set_time (p : Process) (utime stime : Nat) : Process :=
  p.withInfo (fun i =>
    { i with old_utime := i.utime, old_stime := i.stime,
             utime := utime, stime := stime, updated := true })

/-- Modelled from the spec (§4.7; `has_been_updated` lives in the absent
`process.rs`): whether the entry was touched during the last walk. -/
def has_been_updated (p : Process) : Bool := p.updated

/-- Modelled from the spec (§4.4 step 3 and §4.7; `compute_cpu_usage` lives
in the absent `process.rs`): `usage = 100 * (delta_utime + delta_stime) /
total_delta` against the entry's own previous counters, after which the
touched flag is again considered stale for the next cycle (without this
reset the pruning of §4.7 could never remove anything after the first
cycle).  The spec formula does not use the processor count; the parameter is
kept only to mirror the call shape in `clear_procs`. -/
def compute_cpu_usage (p : Process) (nb_processors : Nat) (total_time : Rat) :
    Process :=
  p.withInfo (fun i =>
    let delta : Nat := (i.utime - i.old_utime) + (i.stime - i.old_stime)
    { i with cpu_usage := 100 * (delta : Rat) / total_time, updated := false })

instance exceptDecEq {ε α : Type} [DecidableEq ε] [DecidableEq α] :
    DecidableEq (Except ε α) := fun
  | .ok a, .ok b =>
    if h : a = b then isTrue (congrArg Except.ok h)
    else isFalse (fun e => h (Except.ok.inj e))
  | .error a, .error b =>
    if h : a = b then isTrue (congrArg Except.error h)
    else isFalse (fun e => h (Except.error.inj e))
  | .ok _, .error _ => isFalse (fun e => Except.noConfusion e)
  | .error _, .ok _ => isFalse (fun e => Except.noConfusion e)

example : parseStat "12 (cat) R 1 x".data = .ok ["12", "(cat", "R", "1", "x"] := by decide
example : parseStat "nospace".data = .error .panic := by decide
example : parseStat "1 noparen x".data = .error .panic := by decide
example : parseU64 "123" = some 123 := by decide
example : parseU64 "+7" = some 7 := by decide
example : parseU64 "" = none := by decide
example : parseU64 "12a" = none := by decide
example : parsePidT "-4" = some (-4) := by decide
example : splitOnFirst ' ' "ab cd ef".data = some ("ab".data, "cd ef".data) := by decide
example : splitOnLast ')' "a)b)c".data = some ("a)b".data, "c".data) := by decide
example : splitWs "  a bc  d ".data = ["a".data, "bc".data, "d".data] := by decide
example : splitOnChar ',' "a,,b".data = ["a".data, [], "b".data] := by decide
example : linesOf "x\ny\n" = ["x", "y"] := by decide
example : linesOf "" = [] := by decide

/-- The closure `f` of `_get_process_data` (`src/linux/system.rs:344-350`):
on a line starting with the label `n`, take the whitespace token at index 2
of the whole line (the second token after the label) — `nth(2).unwrap()`
aborts when the line has fewer than three tokens — and parse it, a parse
failure degrading to `none` (`.parse().ok()`). -/
def status_line_value (h : String) (n : String) : Except Panic (Option Nat) :=
  if isPrefixList n.data h.data then
    match (splitWs h.data).get? 2 with
    | none => .error .panic
    | some t => .ok (parseU64 (⟨t⟩ : String))
  else
    .ok none

/-- The `for line in status_data.lines()` loop of `_get_process_data`
(`src/linux/system.rs:351-364`) with its two `assert!(!set_...)` guards:
a second `Uid:`/`Gid:` hit aborts. -/
def statusLines : List String → Option Nat → Option Nat →
    Except Panic (Option Nat × Option Nat)
  | [], set_uid, set_gid => .ok (set_uid, set_gid)
  | line :: rest, set_uid, set_gid =>
    match status_line_value line "Uid:" with
    | .error p => .error p
    | .ok u =>
      match (match u with
             | some v => if set_uid.isSome then .error .panic else .ok (some v)
             | none => .ok set_uid : Except Panic (Option Nat)) with
      | .error p => .error p
      | .ok set_uid' =>
        match status_line_value line "Gid:" with
        | .error p => .error p
        | .ok g =>
          match (match g with
                 | some v => if set_gid.isSome then .error .panic else .ok (some v)
                 | none => .ok set_gid : Except Panic (Option Nat)) with
          | .error p => .error p
          | .ok set_gid' => statusLines rest set_uid' set_gid'

/-- The Uid/Gid extraction of `_get_process_data`
(`src/linux/system.rs:340-365`): run the line loop, then
`assert!(set_uid && set_gid)` — both ids are mandatory, absence aborts. -/
def statusUidGid (status_data : String) : Except Panic (Nat × Nat) :=
  match statusLines (linesOf status_data) none none with
  | .error p => .error p
  | .ok (some u, some g) => .ok (u, g)
  | .ok _ => .error .panic

example : statusUidGid "Name:\tx\nUid:\t10\t20\t30\t40\nGid:\t1 2 3 4\n" = .ok (20, 2) := by decide
example : statusUidGid "Uid:\t10\t20\t30\t40\n" = .error .panic := by decide
example : statusUidGid "Uid: 10 20 30 40\nGid: 1 bad 2 3\n" = .error .panic := by decide

/-- The per-directory-entry view of the filesystem snapshot a walk runs
against: the entry's final path component (`file_name`), whether it is a
directory, the contents of the files `_get_process_data` reads beneath it
(`none` = the read/open fails), the `exe` symlink target (`none` =
`read_link` fails), the `realpath`-resolved `cwd`/`root` targets, and the
listing of its `task` subdirectory (`none` = `read_dir` fails; a `none`
element = an `Err` directory entry). -/
structure FsMeta : Type where
  name : String
  isDir : Bool
  stat : Option String
  statusf : Option String
  cmdline : Option String
  environf : Option String
  exe : Option String
  cwd : String
  root : String
deriving Repr

inductive FsEntry : Type where
  | mk (meta : FsMeta) (task : Option (List (Option FsEntry))) : FsEntry

def FsEntry.meta : FsEntry → FsMeta
  | .mk m _ => m

def FsEntry.task : FsEntry → Option (List (Option FsEntry))
  | .mk _ t => t

/-- `copy_from_file` (`src/linux/system.rs:403-415`): on open failure an
empty vector; otherwise the (utf8) content split on NUL bytes.  The 16384
byte read cap is not modelled (contents are given already read), nor is the
abort on non-utf8 content (contents are given as `String`s). -/
def copy_from_file (content : Option String) : List String :=
  match content with
  | some d => (splitOnChar (Char.ofNat 0) d.data).map (fun l => (⟨l⟩ : String))
  | none => []

/-- `parts[3]` handling of `_get_process_data` (`src/linux/system.rs:320-327`):
the parent pid is the enclosing table's owning pid when that is nonzero
(thread entries), otherwise the parsed record's own field with `0` mapped to
"no parent"; the parse is `unwrap`ped. -/
def stat_parent_pid (pl_pid : Int) (parts : List String) :
    Except Panic (Option Int) :=
  if pl_pid ≠ 0 then .ok (some pl_pid)
  else
    match idx parts 3 with
    | .error p => .error p
    | .ok s =>
      match parsePidT s with
      | none => .error .panic
      | some q => .ok (if q = 0 then none else some q)

/-- `parts[21]` handling of `_get_process_data`
(`src/linux/system.rs:329-332`): start time in ticks divided by the
clock-tick constant (threaded through explicitly, per spec §9, instead of
the source's inline `sysconf(_SC_CLK_TCK)`). -/
def stat_start_time (parts : List String) (clk_tck : Nat) : Except Panic Nat :=
  match idx parts 21 with
  | .error p => .error p
  | .ok s =>
    match parseU64 s with
    | none => .error .panic
    | some v => .ok (v / clk_tck)

/-- `parts[2]` handling of `_get_process_data` (`src/linux/system.rs:334`):
the status is mapped from the first character of the state field
(`chars().next().and_then(...)`). -/
def stat_status (parts : List String) : Except Panic (Option ProcessStatus) :=
  match idx parts 2 with
  | .error p => .error p
  | .ok s => .ok (s.data.head?.map ProcessStatus.fromChar)

/-- The identity-metadata acquisition of `_get_process_data`
(`src/linux/system.rs:367-396`): a thread entry (enclosing table with
nonzero owning pid) inherits by copy; a genuinely new top-level process
reads `cmdline` / `environ` (NUL-separated), resolves the `exe` symlink
(a failed `read_link` leaves the field as-is), and resolves `cwd` / `root`
via `realpath` (in the absent `utils.rs`; modelled from the spec as the
resolved paths the filesystem snapshot carries).  `p.cmd[0]` is unchecked
indexing: it aborts when `cmdline` could not be opened (empty vector). -/
def acquire_identity (e_meta : FsMeta) (proc_list : Process) (p : Process) :
    Except Panic Process :=
  if proc_list.pid ≠ 0 then
    .ok (p.withInfo (fun i =>
      { i with cmd := proc_list.cmd, name := proc_list.name,
               environ := proc_list.environ, exe := proc_list.exe,
               cwd := proc_list.cwd, root := proc_list.root }))
  else
    let cmd := copy_from_file e_meta.cmdline
    match idx cmd 0 with
    | .error p' => .error p'
    | .ok c0 =>
      let nm := ((splitOnChar '/' c0.data).map (fun l => (⟨l⟩ : String))).getLastD ""
      let environ := copy_from_file e_meta.environf
      let exe := match e_meta.exe with
                 | some s => s
                 | none => p.exe
      .ok (p.withInfo (fun i =>
        { i with cmd := cmd, name := nm, environ := environ, exe := exe,
                 cwd := e_meta.cwd, root := e_meta.root }))

mutual

/-- `refresh_procs` (`src/linux/system.rs:249-267`): if the directory cannot
be listed, return `false` with the table untouched; otherwise process each
listing entry — `Err` entries and non-directories are skipped — and return
`true`. -/
def refresh_procs (proc_list : Process) (dir : Option (List (Option FsEntry)))
    (page_size_kb clk_tck : Nat) (pid : Int) : Except Panic (Process × Bool) :=
  match dir with
  | none => .ok (proc_list, false)
  | some entries =>
    match walkEntries proc_list entries page_size_kb clk_tck pid with
    | .error p => .error p
    | .ok pl => .ok (pl, true)
termination_by (sizeOf dir, 0)

/-- The `for entry in d` loop of `refresh_procs`
(`src/linux/system.rs:252-262`): skip `Err` entries (`!entry.is_ok()`), call
`_get_process_data` on directories, thread the table through. -/
def walkEntries (proc_list : Process) (entries : List (Option FsEntry))
    (page_size_kb clk_tck : Nat) (pid : Int) : Except Panic Process :=
  match entries with
  | [] => .ok proc_list
  | none :: rest => walkEntries proc_list rest page_size_kb clk_tck pid
  | some e :: rest =>
    match (if e.meta.isDir then
             _get_process_data e proc_list page_size_kb clk_tck pid
           else .ok proc_list) with
    | .error p => .error p
    | .ok pl => walkEntries pl rest page_size_kb clk_tck pid
termination_by (sizeOf entries, 3)

/-- `_get_process_data` (`src/linux/system.rs:286-401`).  A final path
component that does not parse as a pid falls through silently; an entry whose
id equals the enclosing table's exclusionary id is skipped.  The `stat` read
is `unwrap`ped (a read failure aborts), the record is split by `parseStat`,
then either an existing entry is updated in place or a new one is created,
populated (status character, uid/gid from the `status` file, identity
metadata) and inserted.  Only the `tasks` field of the enclosing table is
ever written. -/
def _get_process_data (e : FsEntry) (proc_list : Process)
    (page_size_kb clk_tck : Nat) (pid : Int) : Except Panic Process :=
  match e with
  | .mk emeta etask =>
    match parsePidT emeta.name with
    | none => .ok proc_list
    | some nb =>
      if nb = pid then .ok proc_list
      else
        match emeta.stat with
        | none => .error .panic
        | some data =>
          match parseStat data.data with
          | .error p => .error p
          | .ok parts =>
            let parent_memory := proc_list.memory
            match tasksGet proc_list.tasks nb with
            | some entry =>
              match update_time_and_memory etask entry parts page_size_kb
                      clk_tck parent_memory nb with
              | .error p => .error p
              | .ok entry2 =>
                .ok (proc_list.setTasks (tasksInsert proc_list.tasks nb entry2))
            | none =>
              match stat_parent_pid proc_list.pid parts with
              | .error p => .error p
              | .ok parent_pid =>
                match stat_start_time parts clk_tck with
                | .error p => .error p
                | .ok st0 =>
                  let p0 := Process.new nb parent_pid st0
                  match stat_status parts with
                  | .error p => .error p
                  | .ok st =>
                    let p1 := p0.withInfo (fun i => { i with status := st })
                    match emeta.statusf with
                    | none => .error .panic
                    | some status_data =>
                      match statusUidGid status_data with
                      | .error p => .error p
                      | .ok ug =>
                        let p2 := p1.withInfo (fun i =>
                          { i with uid := ug.1, gid := ug.2 })
                        match acquire_identity emeta proc_list p2 with
                        | .error p => .error p
                        | .ok p3 =>
                          match update_time_and_memory etask p3 parts
                                  page_size_kb clk_tck proc_list.memory nb with
                          | .error p => .error p
                          | .ok p4 =>
                            .ok (proc_list.setTasks
                                  (tasksInsert proc_list.tasks nb p4))
termination_by (sizeOf e, 2)

/-- `update_time_and_memory` (`src/linux/system.rs:269-284`):
`entry.memory = parts[23].parse().unwrap() * page_size_kb`, then the baseline
is subtracted only when `entry.memory >= parent_memory` (the guard avoids
`u64` underflow; when the raw value is below the baseline the raw value is
kept), then `set_time(entry, parts[13], parts[14])`, then the recursion into
the `task` subdirectory with this entry as the enclosing table (its returned
flag is ignored). -/
def update_time_and_memory (task : Option (List (Option FsEntry)))
    (entry : Process) (parts : List String) (page_size_kb clk_tck : Nat)
    (parent_memory : Nat) (pid : Int) : Except Panic Process :=
  match idx parts 23 with
  | .error p => .error p
  | .ok ms =>
    match parseU64 ms with
    | none => .error .panic
    | some mv =>
      let mem0 := mv * page_size_kb
      let mem1 := if mem0 ≥ parent_memory then mem0 - parent_memory else mem0
      match idx parts 13 with
      | .error p => .error p
      | .ok us =>
        match parseU64 us with
        | none => .error .panic
        | some uv =>
          match idx parts 14 with
          | .error p => .error p
          | .ok ss =>
            match parseU64 ss with
            | none => .error .panic
            | some sv =>
              let entry1 :=
                set_time (entry.withInfo (fun i => { i with memory := mem1 })) uv sv
              match refresh_procs entry1 task page_size_kb clk_tck pid with
              | .error p => .error p
              | .ok pb => .ok pb.1
termination_by (sizeOf task, 1)

end

/-- Modelled from the spec (§3; the `Processor` struct lives in the absent
`processor.rs`): a core sample holds its name and its ten cumulative tick
counters, together with the previous cycle's raw counters retained for the
delta. -/
structure Processor : Type where
  name : String
  counters : List Nat
  old_counters : List Nat
deriving DecidableEq, Repr

/-- Modelled from the spec (§4.4 step 2; `get_raw_times` lives in the absent
`processor.rs`): the pair (current sum, previous sum) over the ten counters
of a core sample. -/
def get_raw_times (p : Processor) : Nat × Nat :=
  (p.counters.sum, p.old_counters.sum)

/-- The `total_time` computation of `clear_procs`
(`src/linux/system.rs:40`): `(if old > new { 1 } else { new - old })`.  The
guard protects the `u64` subtraction from underflow; when `new ≥ old` the
plain difference is used (which is `0` when the sums are equal). -/
def raw_total_time (new old : Nat) : Nat :=
  if old > new then 1 else new - old

/-- Modelled from the spec (§3; the `Disk` struct and `disk::new` live in
the absent `disk.rs`): device name (prefix already stripped by the caller),
mount point path and filesystem type tag.  The capacity/free counters
refreshed separately are not touched by any claim and are omitted. -/
structure Disk : Type where
  name : String
  mount_point : String
  file_system : String
deriving DecidableEq, Repr

/-- Modelled from the spec (§3/§4.8): `disk::new(name, mount_point, fs)`. -/
def disk_new (name mount_point file_system : String) : Disk :=
  ⟨name, mount_point, file_system⟩

/-- The system state (`src/linux/system.rs:24-34`).  The `temperatures`
component list is out of scope (spec §1) and omitted. -/
structure System : Type where
  process_list : Process
  mem_total : Nat
  mem_free : Nat
  swap_total : Nat
  swap_free : Nat
  processors : List Processor
  page_size_kb : Nat
  disks : List Disk

/-- `clear_procs` (`src/linux/system.rs:37-55`): nothing happens while no
processor sample exists; otherwise the total tick delta of the reference
core (`processors[0]`) is computed, every top-level entry that has not been
updated is collected for deletion and removed, and every updated entry gets
its cpu usage recomputed from that delta (the delta is `as f32` in the
source; here the exact value is used). -/
def clear_procs (s : System) : System :=
  match s.processors with
  | [] => s
  | p0 :: _ =>
    let t := get_raw_times p0
    let total_time := raw_total_time t.1 t.2
    let nb_processors := s.processors.length - 1
    let tasks2 := s.process_list.tasks.filterMap (fun pr =>
      if has_been_updated pr.2 then
        some (pr.1, compute_cpu_usage pr.2 nb_processors (total_time : Rat))
      else none)
    { s with process_list := s.process_list.setTasks tasks2 }

/-- `System::refresh_process` (`src/linux/system.rs:61-68`): look the pid up
in the top-level table; when absent return `false` without touching
anything; when present run `_get_process_data` on the path
`/proc/<pid>` (whose snapshot the caller supplies as `e`, with
`e.meta.name = toString pid`) against that entry, and return `true`. -/
def System.refresh_process (s : System) (e : FsEntry) (clk_tck : Nat)
    (pid : Int) : Except Panic (System × Bool) :=
  match tasksGet s.process_list.tasks pid with
  | none => .ok (s, false)
  | some entry =>
    match _get_process_data e entry s.page_size_kb clk_tck pid with
    | .error p => .error p
    | .ok entry2 =>
      let pl2 :=
        s.process_list.setTasks (tasksInsert s.process_list.tasks pid entry2)
      .ok ({ s with process_list := pl2 }, true)

/-- `System::refresh_processes` (`src/linux/system.rs:156-160`): walk the
top-level process directory (whose listing the caller supplies); only when
the walk reported success (`refresh_procs` returned `true`) run
`clear_procs`. -/
def System.refresh_processes (s : System)
    (proc_dir : Option (List (Option FsEntry))) (clk_tck : Nat) :
    Except Panic System :=
  match refresh_procs s.process_list proc_dir s.page_size_kb clk_tck 0 with
  | .error p => .error p
  | .ok (pl, ok) =>
    let s2 := { s with process_list := pl }
    .ok (if ok then clear_procs s2 else s2)

/-- Rust `str::trim_left`: drop leading whitespace. -/
def trim_left (s : String) : String :=
  ⟨s.data.dropWhile Char.isWhitespace⟩

/-- Rust byte slicing `&name[5..]` (modelled on characters; the inputs under
study are ASCII): aborts when the string is shorter than the slice start. -/
def sliceFrom (s : String) (n : Nat) : Except Panic String :=
  if n ≤ s.data.length then .ok ⟨s.data.drop n⟩ else .error .panic

/-- The `for line in disks` loop of `get_all_disks`
(`src/linux/system.rs:424-431`): take the first three `' '`-separated fields
as source device, mount point and filesystem type (lines with fewer fields
are skipped), strip the first five bytes (`/dev/`) from the device. -/
def get_all_disks_go : List String → Except Panic (List Disk)
  | [] => .ok []
  | line :: rest =>
    match splitOnChar ' ' line.data with
    | namel :: mountl :: fsl :: _ =>
      match sliceFrom (⟨namel⟩ : String) 5 with
      | .error p => .error p
      | .ok nm =>
        match get_all_disks_go rest with
        | .error p => .error p
        | .ok ds => .ok (disk_new nm (⟨mountl⟩ : String) (⟨fsl⟩ : String) :: ds)
    | _ => get_all_disks_go rest

/-- `get_all_disks` (`src/linux/system.rs:417-432`): an unreadable mount
table degrades to the empty string (`unwrap_or(String::new())`); keep only
lines whose left-trimmed text starts with `/dev/sd`; build a fresh list. -/
def get_all_disks (content : Option String) : Except Panic (List Disk) :=
  let c := content.getD ""
  get_all_disks_go
    ((linesOf c).filter (fun l => isPrefixList "/dev/sd".data (trim_left l).data))

/-- `System::refresh_disk_list` (`src/linux/system.rs:168-170`):
`self.disks = get_all_disks()`. -/
def System.refresh_disk_list (s : System) (mounts : Option String) :
    Except Panic System :=
  match get_all_disks mounts with
  | .error p => .error p
  | .ok ds => .ok { s with disks := ds }

example :
    get_all_disks (some "/dev/sda1 /mnt/data ext4 rw 0 0\ntmpfs /run tmpfs rw 0 0\n") =
      .ok [⟨"sda1", "/mnt/data", "ext4"⟩] := by decide
example : get_all_disks none = .ok [] := by decide

def exEntryNoStat : FsEntry :=
  .mk { name := "7", isDir := true, stat := none, statusf := none,
        cmdline := none, environf := none, exe := none, cwd := "", root := "" } none

example :
    refresh_procs (Process.new 0 none 0) (some [some exEntryNoStat]) 4 100 0 =
      .error .panic := by
  have h7 : parsePidT "7" = some 7 := by decide
  simp [refresh_procs, walkEntries, _get_process_data, exEntryNoStat,
        FsEntry.meta, h7]

def exEntryGood : FsEntry :=
  .mk { name := "7", isDir := true,
        stat := some "7 (cat) R 1 4 5 6 7 8 9 10 11 12 70 80 15 16 17 18 19 20 5000 22 3",
        statusf := some "Uid:\t0\t33\t0\t0\nGid:\t0\t44\t0\t0\n",
        cmdline := some "/usr/bin/cat\u0000file",
        environf := some "A=1",
        exe := some "/usr/bin/cat", cwd := "/home", root := "/" } none

example :
    refresh_procs (Process.new 0 none 0) (some [some exEntryGood]) 4 100 0 =
      .ok ((Process.new 0 none 0).setTasks
        [(7, .mk { pid := 7, parent := some 1, start_time := 50, name := "cat",
                   cmd := ["/usr/bin/cat", "file"], environ := ["A=1"],
                   exe := "/usr/bin/cat", cwd := "/home", root := "/",
                   uid := 33, gid := 44, memory := 12, utime := 70, stime := 80,
                   old_utime := 0, old_stime := 0, cpu_usage := 0,
                   status := some .Run, updated := true } [])], true) := by
  have h7 : parsePidT "7" = some 7 := by decide
  have hps : parseStat "7 (cat) R 1 4 5 6 7 8 9 10 11 12 70 80 15 16 17 18 19 20 5000 22 3".data =
      .ok ["7", "(cat", "R", "1", "4", "5", "6", "7", "8", "9", "10", "11", "12",
           "70", "80", "15", "16", "17", "18", "19", "20", "5000", "22", "3"] := by decide
  have hug : statusUidGid "Uid:\t0\t33\t0\t0\nGid:\t0\t44\t0\t0\n" = .ok (33, 44) := by decide
  simp [refresh_procs, walkEntries, _get_process_data, exEntryGood, FsEntry.meta,
        FsEntry.task, h7, hps, hug, stat_parent_pid, stat_start_time, stat_status,
        update_time_and_memory, acquire_identity, copy_from_file, idx, unwrapO,
        tasksGet, tasksInsert, Process.new, Process.withInfo, Process.setTasks,
        Process.info, Process.tasks, Process.pid, Process.memory, Process.cmd,
        Process.name, Process.environ, Process.exe, Process.cwd, Process.root,
        set_time]
  rfl

/-! ## Basic lemmas about the embedding -/

@[simp] theorem Process.info_mk (i : ProcInfo) (t : List (Int × Process)) :
    (Process.mk i t).info = i := rfl

@[simp] theorem Process.tasks_mk (i : ProcInfo) (t : List (Int × Process)) :
    (Process.mk i t).tasks = t := rfl

@[simp] theorem Process.info_setTasks (p : Process) (t : List (Int × Process)) :
    (p.setTasks t).info = p.info := by cases p; rfl

@[simp] theorem Process.tasks_setTasks (p : Process) (t : List (Int × Process)) :
    (p.setTasks t).tasks = t := by cases p; rfl

@[simp] theorem Process.info_withInfo (p : Process) (f : ProcInfo → ProcInfo) :
    (p.withInfo f).info = f p.info := by cases p; rfl

@[simp] theorem Process.tasks_withInfo (p : Process) (f : ProcInfo → ProcInfo) :
    (p.withInfo f).tasks = p.tasks := by cases p; rfl

theorem tasksGet_tasksInsert (l : List (Int × Process)) (k : Int) (v : Process) :
    tasksGet (tasksInsert l k v) k = some v := by
  induction l with
  | nil => simp [tasksGet, tasksInsert]
  | cons hd rest ih =>
    obtain ⟨k', v'⟩ := hd
    by_cases h : k' = k <;> simp [tasksGet, tasksInsert, h, ih]

theorem keys_nodup_eq {l : List (Int × Process)}
    (h : (l.map Prod.fst).Nodup) {k : Int} {a b : Process}
    (ha : (k, a) ∈ l) (hb : (k, b) ∈ l) : a = b := by
  induction l with
  | nil => cases ha
  | cons hd rest ih =>
    simp only [List.map_cons, List.nodup_cons] at h
    rcases List.mem_cons.mp ha with ha1 | ha2 <;>
      rcases List.mem_cons.mp hb with hb1 | hb2
    · injection ha1.trans hb1.symm
    · exfalso
      apply h.1
      have hk : hd.1 = k := by rw [← ha1]
      rw [hk]
      exact List.mem_map_of_mem Prod.fst hb2
    · exfalso
      apply h.1
      have hk : hd.1 = k := by rw [← hb1]
      rw [hk]
      exact List.mem_map_of_mem Prod.fst ha2
    · exact ih h.2 ha2 hb2

/-- Everything `_get_process_data` does to the enclosing table happens
through `tasks`: on success the scalar fields of the table are untouched. -/
theorem getProcessData_info {e : FsEntry} {pl : Process}
    {page clk : Nat} {pid : Int} {pl' : Process}
    (h : _get_process_data e pl page clk pid = .ok pl') : pl'.info = pl.info := by
  unfold _get_process_data at h
  rcases e with ⟨emeta, etask⟩
  dsimp only at h
  repeat' split at h
  all_goals first
    | (cases h; simp)
    | simp_all

/-- On success the per-entry loop only rewrites `tasks` of the table it
threads through. -/
theorem walkEntries_info :
    ∀ (entries : List (Option FsEntry)) (pl : Process) (page clk : Nat)
      (pid : Int) (pl' : Process),
      walkEntries pl entries page clk pid = .ok pl' → pl'.info = pl.info := by
  intro entries
  induction entries with
  | nil =>
    intro pl page clk pid pl' h
    unfold walkEntries at h
    cases h; rfl
  | cons hd rest ih =>
    intro pl page clk pid pl' h
    match hd with
    | none =>
      unfold walkEntries at h
      exact ih pl page clk pid pl' h
    | some e =>
      unfold walkEntries at h
      split at h
      · exact absurd h (by simp)
      · rename_i pl1 heq
        split at heq
        · exact (ih _ page clk pid pl' h).trans (getProcessData_info heq)
        · cases heq
          exact ih _ page clk pid pl' h

/-- On success `refresh_procs` only rewrites `tasks` of the table. -/
theorem refresh_procs_info {pl : Process} {dir : Option (List (Option FsEntry))}
    {page clk : Nat} {pid : Int} {pl' : Process} {b : Bool}
    (h : refresh_procs pl dir page clk pid = .ok (pl', b)) : pl'.info = pl.info := by
  unfold refresh_procs at h
  match dir with
  | none => cases h; rfl
  | some entries =>
    dsimp only at h
    cases hw : walkEntries pl entries page clk pid with
    | error p => rw [hw] at h; exact absurd h (by simp)
    | ok plX =>
      rw [hw] at h
      dsimp only at h
      cases h
      exact walkEntries_info entries pl page clk pid _ hw

theorem unwrapO_eq_ok {α : Type} {o : Option α} {a : α}
    (h : unwrapO o = .ok a) : o = some a := by
  cases o with
  | none => exact absurd h (by simp [unwrapO])
  | some x => simp [unwrapO] at h; rw [h]

theorem idx_eq_ok {α : Type} {l : List α} {i : Nat} {a : α}
    (h : idx l i = .ok a) : l.get? i = some a :=
  unwrapO_eq_ok h

/-- Full characterization of a successful `update_time_and_memory`: the raw
page count comes from `parts[23]`, utime/stime from `parts[13]`/`parts[14]`,
the baseline is subtracted only when it does not underflow, the previous
tick pair is retained as "old", the touched flag is set, and no other scalar
field of the entry changes. -/
theorem update_time_and_memory_ok {task : Option (List (Option FsEntry))}
    {entry : Process} {parts : List String} {page clk pm : Nat} {pid : Int}
    {entry2 : Process}
    (h : update_time_and_memory task entry parts page clk pm pid = .ok entry2) :
    ∃ ms mv us uv ss sv,
      parts.get? 23 = some ms ∧ parseU64 ms = some mv ∧
      parts.get? 13 = some us ∧ parseU64 us = some uv ∧
      parts.get? 14 = some ss ∧ parseU64 ss = some sv ∧
      entry2.info = { entry.info with
        memory := if mv * page ≥ pm then mv * page - pm else mv * page,
        utime := uv, stime := sv,
        old_utime := entry.info.utime, old_stime := entry.info.stime,
        updated := true } := by
  unfold update_time_and_memory at h
  cases h23 : idx parts 23 with
  | error p => rw [h23] at h; exact absurd h (by simp)
  | ok ms =>
    rw [h23] at h; dsimp only at h
    cases hmv : parseU64 ms with
    | none => rw [hmv] at h; exact absurd h (by simp)
    | some mv =>
      rw [hmv] at h; dsimp only at h
      cases h13 : idx parts 13 with
      | error p => rw [h13] at h; exact absurd h (by simp)
      | ok us =>
        rw [h13] at h; dsimp only at h
        cases huv : parseU64 us with
        | none => rw [huv] at h; exact absurd h (by simp)
        | some uv =>
          rw [huv] at h; dsimp only at h
          cases h14 : idx parts 14 with
          | error p => rw [h14] at h; exact absurd h (by simp)
          | ok ss =>
            rw [h14] at h; dsimp only at h
            cases hsv : parseU64 ss with
            | none => rw [hsv] at h; exact absurd h (by simp)
            | some sv =>
              rw [hsv] at h; dsimp only at h
              cases hrp : refresh_procs
                  (set_time (entry.withInfo
                    (fun i => { i with memory :=
                      if mv * page ≥ pm then mv * page - pm
                      else mv * page })) uv sv)
                  task page clk pid with
              | error p => rw [hrp] at h; exact absurd h (by simp)
              | ok pb =>
                rw [hrp] at h; dsimp only at h
                cases h
                refine ⟨ms, mv, us, uv, ss, sv, ?_, hmv, ?_, huv, ?_, hsv, ?_⟩
                · exact idx_eq_ok h23
                · exact idx_eq_ok h13
                · exact idx_eq_ok h14
                · obtain ⟨pb1, pb2⟩ := pb
                  have hi := refresh_procs_info hrp
                  dsimp only at hi ⊢
                  rw [hi]
                  simp [set_time, Process.info_withInfo]

/-- The existing-entry branch of `_get_process_data`
(`src/linux/system.rs:314-318`): when the parsed id is already in the table,
the result is exactly the old table with that entry replaced by the result
of `update_time_and_memory`; nothing else runs (identity metadata, status
and uid/gid acquisition are skipped). -/
theorem getProcessData_existing {emeta : FsMeta}
    {etask : Option (List (Option FsEntry))} {pl : Process} {page clk : Nat}
    {pid nb : Int} {data : String} {parts : List String} {entry pl' : Process}
    (hnb : parsePidT emeta.name = some nb) (hne : nb ≠ pid)
    (hstat : emeta.stat = some data) (hparts : parseStat data.data = .ok parts)
    (hget : tasksGet pl.tasks nb = some entry)
    (h : _get_process_data (.mk emeta etask) pl page clk pid = .ok pl') :
    ∃ entry2,
      update_time_and_memory etask entry parts page clk pl.memory nb = .ok entry2 ∧
      pl' = pl.setTasks (tasksInsert pl.tasks nb entry2) := by
  unfold _get_process_data at h
  dsimp only at h
  rw [hnb] at h
  dsimp only at h
  rw [if_neg hne, hstat] at h
  dsimp only at h
  rw [hparts] at h
  dsimp only at h
  rw [hget] at h
  dsimp only at h
  cases hu : update_time_and_memory etask entry parts page clk pl.memory nb with
  | error p => rw [hu] at h; exact absurd h (by simp)
  | ok entry2 =>
    rw [hu] at h
    dsimp only at h
    cases h
    exact ⟨entry2, rfl, rfl⟩

/-! ## Claims -/

def exProcessorFlat : Processor :=
  ⟨"cpu", [1, 2, 3, 4, 5, 6, 7, 8, 9, 10], [1, 2, 3, 4, 5, 6, 7, 8, 9, 10]⟩

/-- **C2, counterexample.**  The claim states that the total tick delta is
`max(1, new_sum - old_sum)`, hence at least 1 and in particular 1 (never 0)
when the sums are equal.  On a reference core whose current and previous
counters have equal sums (55 each), the delta computed by the code
(`raw_total_time`, `src/linux/system.rs:40`) is 0, not 1. -/
theorem C2_counterexample_total_delta_zero :
    get_raw_times exProcessorFlat = (55, 55) ∧
    raw_total_time (get_raw_times exProcessorFlat).1
        (get_raw_times exProcessorFlat).2 = 0 ∧
    ¬ (1 ≤ raw_total_time (get_raw_times exProcessorFlat).1
        (get_raw_times exProcessorFlat).2) := by
  refine ⟨by decide, by decide, by decide⟩

/-- **C2 (amended).**  The total tick delta used as the denominator of
per-process CPU usage equals `1` when the new sum is strictly below the old
sum and `new_sum - old_sum` otherwise; hence it equals
`max(1, new_sum - old_sum)` whenever the two sums differ, but it is `0`
(not 1) when they are equal, and the usage division is guarded against
underflow but not against a zero denominator.  The second conjunct shows the
delta in that exact form is what `clear_procs` feeds to the usage
computation of every surviving entry. -/
theorem C2_total_delta_amended :
    (∀ n o : Nat, raw_total_time n o = if n = o then 0 else max 1 (n - o)) ∧
    (∀ (s : System) (p0 : Processor) (rest : List Processor) (pid : Int)
       (prc : Process),
      s.processors = p0 :: rest →
      (pid, prc) ∈ s.process_list.tasks →
      has_been_updated prc = true →
      (pid, compute_cpu_usage prc (s.processors.length - 1)
          ((raw_total_time (get_raw_times p0).1 (get_raw_times p0).2 : Nat) : Rat)) ∈
        (clear_procs s).process_list.tasks) := by
  constructor
  · intro n o
    unfold raw_total_time
    split <;> split <;> omega
  · intro s p0 rest pid prc hp hm hu
    unfold clear_procs
    rw [hp]
    dsimp only
    rw [← hp]
    simp only [Process.tasks_setTasks]
    refine List.mem_filterMap.mpr ⟨(pid, prc), hm, ?_⟩
    simp [hu]

def prcUpd : Process :=
  (Process.new 5 none 0).withInfo (fun i =>
    { i with utime := 7, old_utime := 2, stime := 3, old_stime := 1,
             updated := true })

def sysW : System :=
  { process_list := (Process.new 0 none 0).setTasks [(5, prcUpd)],
    mem_total := 0, mem_free := 0, swap_total := 0, swap_free := 0,
    processors := [⟨"cpu", [11, 0, 0, 0, 0, 0, 0, 0, 0, 0],
                           [1, 0, 0, 0, 0, 0, 0, 0, 0, 0]⟩],
    page_size_kb := 4, disks := [] }

theorem C2_total_delta_amended_witness :
    raw_total_time 7 7 = 0 ∧
    ((5 : Int), compute_cpu_usage prcUpd (sysW.processors.length - 1)
        ((raw_total_time
            (get_raw_times ⟨"cpu", [11, 0, 0, 0, 0, 0, 0, 0, 0, 0],
                                   [1, 0, 0, 0, 0, 0, 0, 0, 0, 0]⟩).1
            (get_raw_times ⟨"cpu", [11, 0, 0, 0, 0, 0, 0, 0, 0, 0],
                                   [1, 0, 0, 0, 0, 0, 0, 0, 0, 0]⟩).2 : Nat) : Rat)) ∈
      (clear_procs sysW).process_list.tasks := by
  constructor
  · exact (C2_total_delta_amended.1 7 7).trans (by decide)
  · exact C2_total_delta_amended.2 sysW
      ⟨"cpu", [11, 0, 0, 0, 0, 0, 0, 0, 0, 0], [1, 0, 0, 0, 0, 0, 0, 0, 0, 0]⟩
      [] 5 prcUpd rfl (by simp [sysW]) rfl

/-- A 24-field parts list whose resident page count (field 22 after the
name, `parts[23]`) is 5 pages. -/
def statPartsLow : List String :=
  ["9", "(x", "R", "1", "4", "5", "6", "7", "8", "9", "10", "11", "12",
   "70", "80", "15", "16", "17", "18", "19", "20", "5000", "22", "5"]

/-- **C3, counterexample.**  The claim states that when the raw
page-count-derived kilobytes are strictly below the table's memory baseline
the stored result is zero.  With raw value `5 * 1 = 5` kB and baseline 10,
`update_time_and_memory` stores 5 (the subtraction is skipped and the raw
value kept), not 0. -/
theorem C3_counterexample_underflow_keeps_raw :
    (update_time_and_memory none (Process.new 9 none 0) statPartsLow
        1 100 10 9).map Process.memory = .ok 5 ∧ (5 : Nat) ≠ 0 := by
  constructor
  · have h5 : parseU64 "5" = some 5 := by decide
    have h70 : parseU64 "70" = some 70 := by decide
    have h80 : parseU64 "80" = some 80 := by decide
    simp [update_time_and_memory, refresh_procs, statPartsLow, idx, unwrapO,
          h5, h70, h80, set_time, Process.new, Process.withInfo, Process.memory]
    rfl
  · decide

/-- **C3 (amended).**  When a process entry's resident memory is refreshed,
the stored value equals the raw page-count-derived kilobytes minus the
enclosing table's recorded baseline whenever the raw value is at least the
baseline (in particular, a raw value equal to the baseline stores exactly
zero); when the subtraction would underflow (raw value strictly below the
baseline) the subtraction is skipped and the raw value itself is stored
unchanged — never a negative or wrapped value, but not zero either. -/
theorem C3_memory_baseline_amended {task : Option (List (Option FsEntry))}
    {entry : Process} {parts : List String} {page clk pm : Nat} {pid : Int}
    {entry2 : Process} {ms : String} {mv : Nat}
    (hms : parts.get? 23 = some ms) (hmv : parseU64 ms = some mv)
    (h : update_time_and_memory task entry parts page clk pm pid = .ok entry2) :
    entry2.memory = (if mv * page ≥ pm then mv * page - pm else mv * page) ∧
    (mv * page = pm → entry2.memory = 0) ∧
    (mv * page < pm → entry2.memory = mv * page) := by
  obtain ⟨ms', mv', us, uv, ss, sv, hms', hmv', _, _, _, _, hinfo⟩ :=
    update_time_and_memory_ok h
  rw [hms] at hms'
  injection hms' with hmseq
  rw [← hmseq] at hmv'
  rw [hmv] at hmv'
  injection hmv' with hmveq
  subst hmveq
  have hmem : entry2.memory =
      (if mv * page ≥ pm then mv * page - pm else mv * page) := by
    show entry2.info.memory = _
    rw [hinfo]
  refine ⟨hmem, ?_, ?_⟩
  · intro he
    rw [hmem, he]
    simp
  · intro hlt
    rw [hmem, if_neg (by omega)]

theorem C3_memory_baseline_amended_witness :
    statPartsLow.get? 23 = some "5" ∧ parseU64 "5" = some 5 ∧
    (∃ entry2,
      update_time_and_memory none (Process.new 9 none 0) statPartsLow
        1 100 5 9 = .ok entry2 ∧ entry2.memory = 0) := by
  refine ⟨by decide, by decide, ?_⟩
  have h5 : parseU64 "5" = some 5 := by decide
  have h70 : parseU64 "70" = some 70 := by decide
  have h80 : parseU64 "80" = some 80 := by decide
  have hrun : update_time_and_memory none (Process.new 9 none 0) statPartsLow
      1 100 5 9 =
      .ok (.mk { pid := 9, parent := none, start_time := 0, name := "",
                 cmd := [], environ := [], exe := "", cwd := "", root := "",
                 uid := 0, gid := 0, memory := 0, utime := 70, stime := 80,
                 old_utime := 0, old_stime := 0, cpu_usage := 0,
                 status := none, updated := true } []) := by
    simp [update_time_and_memory, refresh_procs, statPartsLow, idx, unwrapO,
          h5, h70, h80, set_time, Process.new, Process.withInfo]
  refine ⟨_, hrun, ?_⟩
  exact (@C3_memory_baseline_amended none (Process.new 9 none 0) statPartsLow
    1 100 5 9 _ "5" 5 (by decide) (by decide) hrun).2.1 (by norm_num)

theorem splitOnFirst_append (sep : Char) (a b : List Char) (h : sep ∉ a) :
    splitOnFirst sep (a ++ sep :: b) = some (a, b) := by
  induction a with
  | nil => simp [splitOnFirst]
  | cons c a' ih =>
    have hc : ¬ (c = sep) := fun hc => h (hc ▸ List.mem_cons_self c a')
    have h' : sep ∉ a' := fun hm => h (List.mem_cons_of_mem c hm)
    simp [splitOnFirst, hc, ih h']

theorem splitOnLast_append (sep : Char) (a b : List Char) (h : sep ∉ b) :
    splitOnLast sep (a ++ sep :: b) = some (a, b) := by
  unfold splitOnLast
  have hrev : (a ++ sep :: b).reverse = b.reverse ++ sep :: a.reverse := by
    simp [List.reverse_append]
  rw [hrev, splitOnFirst_append sep _ _ (by simpa using h)]
  simp

/-- **C4 (amended).**  The stat-record parser isolates the pid at the first
space, takes everything up to the last `')'` character as the stored name
field — only the trailing `')'` is removed; the leading `'('` is retained,
the wrapping parentheses are not both stripped — and splits the remainder on
whitespace.  The record `1 (weird (name))) R 123 456` yields the stored name
field `(weird (name))` (last-`)`-wins, leading paren kept) and state field
`R`. -/
theorem C4_parser_amended :
    (∀ (pid name tail : List Char), ' ' ∉ pid → ')' ∉ tail →
      parseStat (pid ++ ' ' :: (name ++ ')' :: tail)) =
        .ok ((⟨pid⟩ : String) :: (⟨name⟩ : String) ::
             (splitWs tail).map (fun l => (⟨l⟩ : String)))) ∧
    parseStat "1 (weird (name))) R 123 456".data =
      .ok ["1", "(weird (name))", "R", "123", "456"] := by
  constructor
  · intro pid name tail hp ht
    unfold parseStat
    rw [splitOnFirst_append ' ' pid _ hp]
    dsimp only
    rw [splitOnLast_append ')' name tail ht]
  · decide

/-- **C4, counterexample.**  The claim states the example record yields the
name `weird (name))` with the wrapping parentheses stripped; the parser
actually stores `(weird (name))` — the leading `'('` is not stripped. -/
theorem C4_counterexample_leading_paren_kept :
    parseStat "1 (weird (name))) R 123 456".data =
      .ok ["1", "(weird (name))", "R", "123", "456"] ∧
    ("(weird (name))" : String) ≠ "weird (name))" := by
  exact ⟨by decide, by decide⟩

theorem C4_parser_amended_witness :
    (' ' ∉ "1".data) ∧ (')' ∉ " R 123 456".data) ∧
    parseStat ("1".data ++ ' ' :: ("(weird (name))".data ++ ')' :: " R 123 456".data)) =
      .ok ["1", "(weird (name))", "R", "123", "456"] := by
  refine ⟨by decide, by decide, ?_⟩
  have h := C4_parser_amended.1 "1".data "(weird (name))".data " R 123 456".data
    (by decide) (by decide)
  rw [h]
  decide

/-- **C5.**  For every stat record with a sufficient field count (here: any
parts list of the form `[x0, ..., x23] ++ extra`, i.e. at least 24 fields),
the consumed values come from exactly these positions — numbering the fields
after the name starting at 1 = state, field `k` is `parts[k+1]`: the state
character from field 1 (`x2`), the parent pid from field 2 (`x3`), utime
from field 12 (`x13`), stime from field 13 (`x14`), start-time-in-ticks from
field 20 (`x21`), and the resident page count from field 22 (`x23`).  Since
all 24 fields are distinct universally-quantified strings, each conclusion
exhibits precisely the position each consumer reads. -/
theorem C5_field_positions :
    ∀ (x0 x1 x2 x3 x4 x5 x6 x7 x8 x9 x10 x11 x12 x13 x14 x15 x16 x17 x18 x19 x20 x21 x22 x23 : String)
      (extra : List String) (page clk pm : Nat) (pid : Int) (entry : Process),
      (stat_status ([x0, x1, x2, x3, x4, x5, x6, x7, x8, x9, x10, x11, x12, x13, x14, x15, x16, x17, x18, x19, x20, x21, x22, x23] ++ extra) =
        .ok (x2.data.head?.map ProcessStatus.fromChar)) ∧
      (∀ q : Int, parsePidT x3 = some q →
        stat_parent_pid 0 ([x0, x1, x2, x3, x4, x5, x6, x7, x8, x9, x10, x11, x12, x13, x14, x15, x16, x17, x18, x19, x20, x21, x22, x23] ++ extra) =
          .ok (if q = 0 then none else some q)) ∧
      (∀ v : Nat, parseU64 x21 = some v →
        stat_start_time ([x0, x1, x2, x3, x4, x5, x6, x7, x8, x9, x10, x11, x12, x13, x14, x15, x16, x17, x18, x19, x20, x21, x22, x23] ++ extra) clk = .ok (v / clk)) ∧
      (∀ mv uv sv : Nat, parseU64 x23 = some mv → parseU64 x13 = some uv →
        parseU64 x14 = some sv →
        update_time_and_memory none entry ([x0, x1, x2, x3, x4, x5, x6, x7, x8, x9, x10, x11, x12, x13, x14, x15, x16, x17, x18, x19, x20, x21, x22, x23] ++ extra) page clk pm pid =
          .ok (set_time (entry.withInfo (fun i =>
            { i with memory :=
                if mv * page ≥ pm then mv * page - pm else mv * page })) uv sv)) := by
  intro x0 x1 x2 x3 x4 x5 x6 x7 x8 x9 x10 x11 x12 x13 x14 x15 x16 x17 x18 x19 x20 x21 x22 x23 extra page clk pm pid entry
  refine ⟨rfl, ?_, ?_, ?_⟩
  · intro q hq
    simp [stat_parent_pid, idx, unwrapO, hq]
  · intro v hv
    simp [stat_start_time, idx, unwrapO, hv]
  · intro mv uv sv hmv huv hsv
    have h23 : idx (x0 :: x1 :: x2 :: x3 :: x4 :: x5 :: x6 :: x7 :: x8 :: x9 :: x10 :: x11 :: x12 :: x13 :: x14 :: x15 :: x16 :: x17 :: x18 :: x19 :: x20 :: x21 :: x22 :: x23 :: extra) 23 = .ok x23 := rfl
    have h13 : idx (x0 :: x1 :: x2 :: x3 :: x4 :: x5 :: x6 :: x7 :: x8 :: x9 :: x10 :: x11 :: x12 :: x13 :: x14 :: x15 :: x16 :: x17 :: x18 :: x19 :: x20 :: x21 :: x22 :: x23 :: extra) 13 = .ok x13 := rfl
    have h14 : idx (x0 :: x1 :: x2 :: x3 :: x4 :: x5 :: x6 :: x7 :: x8 :: x9 :: x10 :: x11 :: x12 :: x13 :: x14 :: x15 :: x16 :: x17 :: x18 :: x19 :: x20 :: x21 :: x22 :: x23 :: extra) 14 = .ok x14 := rfl
    simp [update_time_and_memory, refresh_procs, h23, h13, h14, hmv, huv, hsv]

/-- The 24-field parts list instantiating `C5_field_positions`. -/
def c5parts : List String := ["f0", "f1", "R", "1", "f4", "f5", "f6", "f7", "f8", "f9", "f10", "f11", "f12", "70", "80", "f15", "f16", "f17", "f18", "f19", "f20", "5000", "f22", "3"] ++ ["x"]

theorem C5_field_positions_witness :
    parsePidT "1" = some 1 ∧ parseU64 "5000" = some 5000 ∧
    parseU64 "3" = some 3 ∧ parseU64 "70" = some 70 ∧ parseU64 "80" = some 80 ∧
    stat_status c5parts = .ok (some ProcessStatus.Run) ∧
    stat_parent_pid 0 c5parts = .ok (some 1) ∧
    stat_start_time c5parts 100 = .ok 50 ∧
    update_time_and_memory none (Process.new 1 none 0) c5parts 4 100 0 0 =
      .ok (set_time ((Process.new 1 none 0).withInfo (fun i =>
        { i with memory := if 3 * 4 ≥ 0 then 3 * 4 - 0 else 3 * 4 })) 70 80) := by
  have h := C5_field_positions "f0" "f1" "R" "1" "f4" "f5" "f6" "f7" "f8" "f9" "f10" "f11" "f12" "70" "80" "f15" "f16" "f17" "f18" "f19" "f20" "5000" "f22" "3"
    ["x"] 4 100 0 0 (Process.new 1 none 0)
  refine ⟨by decide, by decide, by decide, by decide, by decide, ?_, ?_, ?_, ?_⟩
  · exact h.1
  · exact h.2.1 1 (by decide)
  · exact h.2.2.1 5000 (by decide)
  · exact h.2.2.2 3 70 80 (by decide) (by decide) (by decide)

/-- **C6 (amended).**  When an id already present in the table is
re-observed during a walk, the refresh updates that entry's memory and cpu
tick counters in place (retaining the previous ticks as the "old" pair) and
marks it touched, while its identity metadata (name, command line,
environment, exe, cwd, root, uid, gid), start time, parent id — and also its
lifecycle status, which contrary to the original claim is refreshed only
when an entry is first created — are left unchanged and never re-read; the
enclosing table's own scalar fields are untouched as well. -/
theorem C6_existing_entry_amended {emeta : FsMeta}
    {etask : Option (List (Option FsEntry))} {pl : Process} {page clk : Nat}
    {pid nb : Int} {data : String} {parts : List String} {entry pl' : Process}
    {ms us ss : String} {mv uv sv : Nat}
    (hnb : parsePidT emeta.name = some nb) (hne : nb ≠ pid)
    (hstat : emeta.stat = some data) (hparts : parseStat data.data = .ok parts)
    (hget : tasksGet pl.tasks nb = some entry)
    (hms : parts.get? 23 = some ms) (hmv : parseU64 ms = some mv)
    (hus : parts.get? 13 = some us) (huv : parseU64 us = some uv)
    (hss : parts.get? 14 = some ss) (hsv : parseU64 ss = some sv)
    (h : _get_process_data (.mk emeta etask) pl page clk pid = .ok pl') :
    ∃ entry', tasksGet pl'.tasks nb = some entry' ∧
      entry'.memory =
        (if mv * page ≥ pl.memory then mv * page - pl.memory else mv * page) ∧
      entry'.utime = uv ∧ entry'.stime = sv ∧
      entry'.old_utime = entry.utime ∧ entry'.old_stime = entry.stime ∧
      entry'.updated = true ∧
      entry'.name = entry.name ∧ entry'.cmd = entry.cmd ∧
      entry'.environ = entry.environ ∧ entry'.exe = entry.exe ∧
      entry'.cwd = entry.cwd ∧ entry'.root = entry.root ∧
      entry'.uid = entry.uid ∧ entry'.gid = entry.gid ∧
      entry'.status = entry.status ∧ entry'.start_time = entry.start_time ∧
      entry'.parent = entry.parent ∧
      pl'.info = pl.info := by
  obtain ⟨entry2, hu, hpl⟩ := getProcessData_existing hnb hne hstat hparts hget h
  obtain ⟨ms', mv', us', uv', ss', sv', hms', hmv', hus', huv', hss', hsv', hinfo⟩ :=
    update_time_and_memory_ok hu
  rw [hms] at hms'
  injection hms' with e1
  subst e1
  rw [hmv] at hmv'
  injection hmv' with e2
  subst e2
  rw [hus] at hus'
  injection hus' with e3
  subst e3
  rw [huv] at huv'
  injection huv' with e4
  subst e4
  rw [hss] at hss'
  injection hss' with e5
  subst e5
  rw [hsv] at hsv'
  injection hsv' with e6
  subst e6
  refine ⟨entry2, by rw [hpl]; simp [tasksGet_tasksInsert], ?_, ?_, ?_, ?_, ?_,
    ?_, ?_, ?_, ?_, ?_, ?_, ?_, ?_, ?_, ?_, ?_, ?_, by rw [hpl]; simp⟩ <;>
      simp [Process.memory, Process.utime, Process.stime, Process.old_utime,
            Process.old_stime, Process.updated, Process.name, Process.cmd,
            Process.environ, Process.exe, Process.cwd, Process.root,
            Process.uid, Process.gid, Process.status, Process.start_time,
            Process.parent, hinfo]

def statStrC6 : String :=
  "5 (x) R 1 4 5 6 7 8 9 10 11 12 70 80 15 16 17 18 19 20 5000 22 3"

def prcSleep : Process :=
  (Process.new 5 none 0).withInfo (fun i => { i with status := some .Sleep })

def plC6 : Process := (Process.new 0 none 0).setTasks [(5, prcSleep)]

def exMetaC6 : FsMeta :=
  { name := "5", isDir := true, stat := some statStrC6, statusf := none,
    cmdline := none, environf := none, exe := none, cwd := "", root := "" }

def exEntryExisting : FsEntry := .mk exMetaC6 none

/-- **C6, counterexample.**  The claim states that for a re-observed id the
refresh updates the entry's status in place.  With an existing entry whose
status is `Sleep` and a stat record whose state field is `R` (running), the
refreshed entry still carries status `Sleep`: the status is never touched on
the existing-entry path. -/
theorem C6_counterexample_status_stale :
    (parseStat statStrC6.data).map (fun ps => ps.get? 2) = .ok (some "R") ∧
    (_get_process_data exEntryExisting plC6 4 100 0).map
        (fun pl' => (tasksGet pl'.tasks 5).map Process.status) =
      .ok (some (some ProcessStatus.Sleep)) ∧
    some ProcessStatus.Sleep ≠ some ProcessStatus.Run := by
  refine ⟨by decide, ?_, by decide⟩
  have h5 : parsePidT "5" = some 5 := by decide
  have hps : parseStat statStrC6.data =
      .ok ["5", "(x", "R", "1", "4", "5", "6", "7", "8", "9", "10", "11", "12",
           "70", "80", "15", "16", "17", "18", "19", "20", "5000", "22", "3"] := by
    decide
  have h3 : parseU64 "3" = some 3 := by decide
  have h70 : parseU64 "70" = some 70 := by decide
  have h80 : parseU64 "80" = some 80 := by decide
  simp [_get_process_data, exEntryExisting, exMetaC6, h5, hps, h3, h70, h80,
        update_time_and_memory, refresh_procs, idx, unwrapO, plC6, prcSleep,
        tasksGet, tasksInsert, Process.new, Process.withInfo, set_time,
        Process.status, Process.setTasks, Process.memory, Process.info]
  rfl

def plC6res : Process :=
  plC6.setTasks [(5, .mk
    { pid := 5, parent := none, start_time := 0, name := "", cmd := [],
      environ := [], exe := "", cwd := "", root := "", uid := 0, gid := 0,
      memory := 12, utime := 70, stime := 80, old_utime := 0, old_stime := 0,
      cpu_usage := 0, status := some .Sleep, updated := true } [])]

theorem C6_existing_entry_amended_witness :
    parsePidT "5" = some 5 ∧ ((5 : Int) ≠ 0) ∧
    tasksGet plC6.tasks 5 = some prcSleep ∧
    _get_process_data exEntryExisting plC6 4 100 0 = .ok plC6res ∧
    (∃ entry', tasksGet plC6res.tasks 5 = some entry' ∧
      entry'.status = prcSleep.status ∧ entry'.updated = true ∧
      entry'.memory = 12 ∧ entry'.utime = 70 ∧
      entry'.name = prcSleep.name ∧ entry'.start_time = prcSleep.start_time) := by
  have h5 : parsePidT "5" = some 5 := by decide
  have hps : parseStat statStrC6.data =
      .ok ["5", "(x", "R", "1", "4", "5", "6", "7", "8", "9", "10", "11", "12",
           "70", "80", "15", "16", "17", "18", "19", "20", "5000", "22", "3"] := by
    decide
  have h3 : parseU64 "3" = some 3 := by decide
  have h70 : parseU64 "70" = some 70 := by decide
  have h80 : parseU64 "80" = some 80 := by decide
  have hrun : _get_process_data exEntryExisting plC6 4 100 0 = .ok plC6res := by
    simp [_get_process_data, exEntryExisting, exMetaC6, h5, hps, h3, h70, h80,
          update_time_and_memory, refresh_procs, idx, unwrapO, plC6, prcSleep,
          tasksGet, tasksInsert, Process.new, Process.withInfo, set_time,
          plC6res, Process.setTasks, Process.memory, Process.info]
  refine ⟨h5, by decide, rfl, hrun, ?_⟩
  have happ := @C6_existing_entry_amended exMetaC6 none plC6 4 100 0 5
    statStrC6
    ["5", "(x", "R", "1", "4", "5", "6", "7", "8", "9", "10", "11", "12",
     "70", "80", "15", "16", "17", "18", "19", "20", "5000", "22", "3"]
    prcSleep plC6res "3" "70" "80" 3 70 80
    h5 (by decide) rfl hps rfl (by decide) h3 (by decide) h70 (by decide) h80
    hrun
  obtain ⟨entry', hg, hmem, hut, hstv, hout, host, hupd, hname, hcmd, henv,
    hexe, hcwd, hroot, huid, hgid, hstatus, hstart, hparent, hplinfo⟩ := happ
  exact ⟨entry', hg, hstatus, hupd, hmem.trans (by decide), hut, hname, hstart⟩

/-- **C7.**  After `clear_procs` runs (which happens only when a CPU-core
sample exists): every entry remaining in the top-level table stems from an
entry that was touched during the walk, and an id all of whose entries were
untouched is absent afterwards (so `refresh_process` for it returns
not-found); when no core sample exists yet (the initial population at
construction) the pruning does nothing at all. -/
theorem C7_pruning_policy :
    (∀ (s : System) (pr : Int × Process), s.processors ≠ [] →
      pr ∈ (clear_procs s).process_list.tasks →
      ∃ pr0 : Process, (pr.1, pr0) ∈ s.process_list.tasks ∧
        has_been_updated pr0 = true) ∧
    (∀ (s : System) (pid : Int) (prc : Process), s.processors ≠ [] →
      (s.process_list.tasks.map Prod.fst).Nodup →
      (pid, prc) ∈ s.process_list.tasks → has_been_updated prc = false →
      pid ∉ ((clear_procs s).process_list.tasks.map Prod.fst)) ∧
    (∀ s : System, s.processors = [] → clear_procs s = s) ∧
    (∀ (s : System) (e : FsEntry) (clk : Nat) (pid : Int),
      tasksGet s.process_list.tasks pid = none →
      s.refresh_process e clk pid = .ok (s, false)) := by
  refine ⟨?_, ?_, ?_, ?_⟩
  · intro s pr hne hm
    cases hp : s.processors with
    | nil => exact absurd hp hne
    | cons p0 rest =>
      unfold clear_procs at hm
      rw [hp] at hm
      dsimp only at hm
      simp only [Process.tasks_setTasks] at hm
      obtain ⟨⟨k, q⟩, hq, heq⟩ := List.mem_filterMap.mp hm
      by_cases hu : has_been_updated q = true
      · rw [if_pos hu] at heq
        injection heq with h2
        rw [← h2]
        exact ⟨q, hq, hu⟩
      · rw [if_neg hu] at heq
        cases heq
  · intro s pid prc hne hnd hm hupd hmem
    cases hp : s.processors with
    | nil => exact absurd hp hne
    | cons p0 rest =>
      unfold clear_procs at hmem
      rw [hp] at hmem
      dsimp only at hmem
      simp only [Process.tasks_setTasks] at hmem
      obtain ⟨x, hx, hfst⟩ := List.mem_map.mp hmem
      obtain ⟨⟨k, q⟩, hkq, heq⟩ := List.mem_filterMap.mp hx
      by_cases hu : has_been_updated q = true
      · rw [if_pos hu] at heq
        injection heq with h2
        rw [← h2] at hfst
        dsimp only at hfst
        rw [hfst] at hkq
        have := keys_nodup_eq hnd hkq hm
        rw [this] at hu
        rw [hupd] at hu
        cases hu
      · rw [if_neg hu] at heq
        cases heq
  · intro s h
    unfold clear_procs
    rw [h]
  · intro s e clk pid h
    unfold System.refresh_process
    rw [h]

def prcStale : Process := Process.new 6 none 0

def sysW7 : System :=
  { process_list := (Process.new 0 none 0).setTasks [(5, prcUpd), (6, prcStale)],
    mem_total := 0, mem_free := 0, swap_total := 0, swap_free := 0,
    processors := [exProcessorFlat], page_size_kb := 4, disks := [] }

def sysNoProc : System := { sysW7 with processors := [] }

theorem C7_pruning_policy_witness :
    (∃ pr0 : Process, ((5 : Int), pr0) ∈ sysW7.process_list.tasks ∧
      has_been_updated pr0 = true) ∧
    (6 : Int) ∉ ((clear_procs sysW7).process_list.tasks.map Prod.fst) ∧
    clear_procs sysNoProc = sysNoProc ∧
    sysW7.refresh_process exEntryGood 100 99 = .ok (sysW7, false) := by
  refine ⟨?_, ?_, ?_, ?_⟩
  · refine C7_pruning_policy.1 sysW7
      (5, compute_cpu_usage prcUpd (sysW7.processors.length - 1)
        ((raw_total_time (get_raw_times exProcessorFlat).1
            (get_raw_times exProcessorFlat).2 : Nat) : Rat))
      (by simp [sysW7]) ?_
    simp [clear_procs, sysW7, has_been_updated, prcUpd, prcStale,
          Process.updated, Process.new, Process.withInfo, Process.info]
  · exact C7_pruning_policy.2.1 sysW7 6 prcStale (by simp [sysW7])
      (by simp [sysW7, prcUpd, prcStale, Process.new, Process.withInfo])
      (by simp [sysW7]) rfl
  · exact C7_pruning_policy.2.2.1 sysNoProc rfl
  · exact C7_pruning_policy.2.2.2 sysW7 exEntryGood 100 99 rfl

/-- **C9.**  Disk enumeration maps the mount-table line
`/dev/sda1 /mnt/data ext4 ...` to a disk named `sda1` (the `/dev/` prefix
stripped) mounted at `/mnt/data` with filesystem `ext4`, excludes `tmpfs`
and `nfs` source lines (they do not start with the block-device prefix), and
`refresh_disk_list` replaces the previous disk list wholesale with the
freshly enumerated one, ignoring the old list entirely. -/
theorem C9_disk_enumeration :
    get_all_disks
        (some "/dev/sda1 /mnt/data ext4 rw,relatime 0 0\ntmpfs /run tmpfs rw 0 0\nnfsserver:/export /mnt/n nfs rw 0 0\n") =
      .ok [disk_new "sda1" "/mnt/data" "ext4"] ∧
    (∀ (s : System) (mounts : Option String),
      s.refresh_disk_list mounts =
        (get_all_disks mounts).map (fun ds => { s with disks := ds })) := by
  constructor
  · decide
  · intro s mounts
    unfold System.refresh_disk_list
    cases get_all_disks mounts <;> rfl

/-- **C10.**  If the top-level process directory cannot be read at all
(`read_dir` fails, modelled by `none`), a process-table refresh returns the
system state entirely unchanged: no entry is added, updated, marked, or
pruned (`refresh_procs` reports `false`, so `clear_procs` never runs). -/
theorem C10_unreadable_procdir_is_noop :
    ∀ (s : System) (clk : Nat), s.refresh_processes none clk = .ok s := by
  intro s clk
  unfold System.refresh_processes
  have h : refresh_procs s.process_list none s.page_size_kb clk 0 =
      .ok (s.process_list, false) := by
    unfold refresh_procs
    rfl
  rw [h]
  rfl

def exEntryBadStat : FsEntry :=
  .mk { name := "9", isDir := true, stat := some "garbagenospace",
        statusf := none, cmdline := none, environf := none, exe := none,
        cwd := "", root := "" } none

def exEntryNotDir : FsEntry :=
  .mk { name := "10", isDir := false, stat := none, statusf := none,
        cmdline := none, environf := none, exe := none, cwd := "", root := "" }
      none

/-- **C1 (code bug).**  The claim (and the spec's error policy) requires a
per-entry stat read/parse failure to be skipped, the walk continuing with
sibling entries.  The code instead `unwrap`s the read
(`src/linux/system.rs:294`) and indexes the parse unchecked, so one bad
entry aborts the entire refresh: (1) an entry whose `stat` file cannot be
read aborts the walk before the healthy sibling listed after it is ever
processed; (2) an entry whose `stat` record is malformed (no space) aborts
likewise; (3) by contrast, containment does exist one stage earlier — an
`Err` directory entry and a non-directory entry are skipped and the walk
succeeds. -/
theorem C1_entry_stat_failure_aborts_refresh :
    refresh_procs (Process.new 0 none 0)
        (some [some exEntryNoStat, some exEntryGood]) 4 100 0 = .error .panic ∧
    refresh_procs (Process.new 0 none 0)
        (some [some exEntryBadStat]) 4 100 0 = .error .panic ∧
    refresh_procs (Process.new 0 none 0)
        (some [none, some exEntryNotDir]) 4 100 0 =
      .ok (Process.new 0 none 0, true) := by
  have h7 : parsePidT "7" = some 7 := by decide
  have h9 : parsePidT "9" = some 9 := by decide
  have hbad : parseStat "garbagenospace".data = .error .panic := by decide
  refine ⟨?_, ?_, ?_⟩
  · simp [refresh_procs, walkEntries, _get_process_data, exEntryNoStat,
          FsEntry.meta, h7]
  · simp [refresh_procs, walkEntries, _get_process_data, exEntryBadStat,
          FsEntry.meta, h9, hbad]
  · simp [refresh_procs, walkEntries, exEntryNotDir, FsEntry.meta]

def exEntryNoGid : FsEntry :=
  .mk { name := "8", isDir := true,
        stat := some "8 (cat) R 1 4 5 6 7 8 9 10 11 12 70 80 15 16 17 18 19 20 5000 22 3",
        statusf := some "Uid:\t0\t33\t0\t0\n",
        cmdline := none, environf := none, exe := none, cwd := "", root := "" }
      none

/-- **C8 (code bug).**  The extractor does take the second
whitespace-delimited token after the `Uid:`/`Gid:` label (the effective id):
`statusUidGid` on a well-formed status file returns `(20, 2)` for second
tokens 20 and 2.  But when the `Gid:` label is missing, or its value token
does not parse as an unsigned integer, the failure is NOT contained to the
entry: the `assert!(set_uid && set_gid)` (`src/linux/system.rs:365`) aborts,
and a walk that meets such an entry aborts as a whole instead of skipping
it. -/
theorem C8_uid_gid_extraction_aborts_refresh :
    statusUidGid "Uid:\t10\t20\t30\t40\nGid:\t1\t2\t3\t4\n" = .ok (20, 2) ∧
    statusUidGid "Name:\tx\nUid:\t10\t20\t30\t40\n" = .error .panic ∧
    statusUidGid "Uid:\t10\t20\t30\t40\nGid:\t1\tbad\t2\t3\n" = .error .panic ∧
    refresh_procs (Process.new 0 none 0) (some [some exEntryNoGid]) 4 100 0 =
      .error .panic := by
  have h8 : parsePidT "8" = some 8 := by decide
  have hps : parseStat "8 (cat) R 1 4 5 6 7 8 9 10 11 12 70 80 15 16 17 18 19 20 5000 22 3".data =
      .ok ["8", "(cat", "R", "1", "4", "5", "6", "7", "8", "9", "10", "11", "12",
           "70", "80", "15", "16", "17", "18", "19", "20", "5000", "22", "3"] := by
    decide
  have h1 : parsePidT "1" = some 1 := by decide
  have h5000 : parseU64 "5000" = some 5000 := by decide
  have hug : statusUidGid "Uid:\t0\t33\t0\t0\n" = .error .panic := by decide
  refine ⟨by decide, by decide, by decide, ?_⟩
  simp [refresh_procs, walkEntries, _get_process_data, exEntryNoGid,
        FsEntry.meta, h8, hps, h1, h5000, hug, stat_parent_pid,
        stat_start_time, stat_status, idx, unwrapO, tasksGet,
        Process.new, Process.tasks, Process.pid, Process.info]
